import Mathlib

/-!
Shallow embedding of the content-rendering pipeline of the portfolio site
(static/js/content-manager.js) together with the Azure Maps API-key
fallback chain (static/js/azure-maps-config.js and the integration module).
DOM nodes are modelled as a tree of text nodes and elements; each renderer
is translated into a function producing the list of child nodes it appends
to its container.
-/

/-- A DOM node: either a text node or an element with a tag name, a
className, a list of attributes and a list of children. -/
inductive Node where
  | text : String → Node
  | elem : String → String → List (String × String) → List Node → Node
deriving Repr

mutual

/-- Characters of the text content of a node (DOM textContent). -/
def nodeChars : Node → List Char
  | .text s => s.data
  | .elem _ _ _ children => listChars children

/-- Characters of the concatenated text content of a list of nodes. -/
def listChars : List Node → List Char
  | [] => []
  | n :: rest => nodeChars n ++ listChars rest

end

/-- Concatenated text content of a list of nodes, as a string. -/
def textOfNodes (l : List Node) : String := String.mk (listChars l)

/-- Styling rule for the first letter of a text field
(stylingRules.firstLetterRule). -/
structure FirstLetterRule where
  enabled : Bool
  className : String
deriving Repr, DecidableEq

/-- Styling rule for punctuation characters
(stylingRules.punctuationRule). -/
structure PunctuationRule where
  enabled : Bool
  characters : String
  className : String
deriving Repr, DecidableEq

/-- The styling-rule set loaded from the content document. Both rules are
optional, mirroring the optional chaining `stylingRules?.firstLetterRule?`
in the source. -/
structure StylingRules where
  firstLetterRule : Option FirstLetterRule
  punctuationRule : Option PunctuationRule
deriving Repr, DecidableEq

/-- Truthiness of `stylingRules?.firstLetterRule?.enabled`. -/
def firstLetterEnabled : Option StylingRules → Bool
  | some rules =>
    match rules.firstLetterRule with
    | some r => r.enabled
    | none => false
  | none => false

/-- Truthiness of `stylingRules?.punctuationRule?.enabled`. -/
def punctEnabled : Option StylingRules → Bool
  | some rules =>
    match rules.punctuationRule with
    | some r => r.enabled
    | none => false
  | none => false

/-- The className of the first-letter rule (read only when enabled). -/
def firstLetterClass : Option StylingRules → String
  | some rules =>
    match rules.firstLetterRule with
    | some r => r.className
    | none => ""
  | none => ""

/-- The className of the punctuation rule (read only when enabled). -/
def punctClass : Option StylingRules → String
  | some rules =>
    match rules.punctuationRule with
    | some r => r.className
    | none => ""
  | none => ""

/-- The punctuation character set, as the character list of
`punctuationRule.characters` (read only when enabled). -/
def punctChars : Option StylingRules → List Char
  | some rules =>
    match rules.punctuationRule with
    | some r => r.characters.data
    | none => []
  | none => []

/-- The punctuation scan of applyStyleToText: walk the working text left to
right keeping the run accumulated since the last cursor position (`acc`,
the slice from lastIndex to i); on a punctuation character emit the run (if
non-empty) as a text node followed by a styled span, then reset the run;
after the scan emit the trailing run (if non-empty). -/
def punctScan (pchars : List Char) (cls : String) : List Char → List Char → List Node
  | acc, [] => if acc.isEmpty then [] else [Node.text (String.mk acc)]
  | acc, c :: rest =>
    if pchars.contains c then
      (if acc.isEmpty then [] else [Node.text (String.mk acc)]) ++
        Node.elem "span" cls [] [Node.text (String.mk [c])] :: punctScan pchars cls [] rest
    else
      punctScan pchars cls (acc ++ [c]) rest

/-- The second half of applyStyleToText: punctuation styling when
`punctuationRule` is enabled, otherwise a single text node holding the
whole working text (appended even when it is empty). -/
def punctStep (rules : Option StylingRules) (currentText : List Char) : List Node :=
  if punctEnabled rules then
    punctScan (punctChars rules) (punctClass rules) [] currentText
  else
    [Node.text (String.mk currentText)]

/-- ContentManager.applyStyleToText: the list of child nodes appended to
the (cleared) container. When the first-letter rule is enabled a span
holding `text.charAt(0)` is appended and the rest of the string becomes
the working text for the punctuation step. -/
def applyStyleToText (rules : Option StylingRules) (text : String) : List Node :=
  if firstLetterEnabled rules then
    Node.elem "span" (firstLetterClass rules) [] [Node.text (String.mk (text.data.take 1))]
      :: punctStep rules (text.data.drop 1)
  else
    punctStep rules text.data

/-- Effect of `container.innerHTML = ''`: all children are removed. -/
def clearContainer : List Node → List Node := fun _ => []

/-- applyStyleToText as a container transformer: the container is cleared
(`container.innerHTML = ''`) and then the computed nodes are appended. -/
def applyStyleToTextDom (rules : Option StylingRules) (text : String)
    (container : List Node) : List Node :=
  clearContainer container ++ applyStyleToText rules text

/-- Section data for whoAmI: an ordered sequence of text lines. -/
structure WhoAmI where
  content : List String
deriving Repr

/-- Section data for personalInfo. The phones field is optional, mirroring
the `info.phones && info.phones.length > 0` guard in the source. -/
structure PersonalInfo where
  legalName : String
  preferredName : String
  dateOfBirth : String
  email : String
  phones : Option (List String)
deriving Repr

/-- Section data for one showcase entry. -/
structure Project where
  title : String
  url : String
  description : String
  details : List String
deriving Repr

/-- Section data for one experience entry. -/
structure ExperienceEntry where
  title : String
  period : String
  details : List String
deriving Repr

/-- Section data for one education entry. institutionUrl2 is optional. -/
structure EducationEntry where
  degree : String
  institution : String
  institutionUrl : String
  institutionUrl2 : Option String
  period : String
deriving Repr

/-- The section map of the content document (data.sections). Every key is
optional: each renderer guards on its own key being present. -/
structure ContentData where
  whoAmI : Option WhoAmI
  personalInfo : Option PersonalInfo
  knowHow : Option (List String)
  showcase : Option (List Project)
  experience : Option (List ExperienceEntry)
  education : Option (List EducationEntry)
deriving Repr

/-- The DOM mount points the six section renderers write into. Each field
holds the child-node list of one container (knowHow has two columns). -/
structure Dom where
  whoAmIChildren : List Node
  personalInfoChildren : List Node
  knowHowLeft : List Node
  knowHowRight : List Node
  showcaseChildren : List Node
  experienceChildren : List Node
  educationChildren : List Node
deriving Repr

/-- One whoAmI line: an inline div filled by applyStyleToText. -/
def lineDivNode (rules : Option StylingRules) (t : String) : Node :=
  Node.elem "div" "" [("style.display", "inline")] (applyStyleToText rules t)

/-- The whoAmI content loop: one inline div per line, with a br element
between consecutive lines (none after the last). -/
def whoAmILines (rules : Option StylingRules) : List String → List Node
  | [] => []
  | [t] => [lineDivNode rules t]
  | t :: t2 :: rest =>
    lineDivNode rules t :: Node.elem "br" "" [] [] :: whoAmILines rules (t2 :: rest)

/-- ContentManager.renderWhoAmISection: if the whoAmI data is absent the
DOM is untouched; otherwise the container is cleared and repopulated. -/
def renderWhoAmISection (rules : Option StylingRules) (data : Option WhoAmI)
    (dom : Dom) : Dom :=
  match data with
  | none => dom
  | some w => { dom with whoAmIChildren := clearContainer dom.whoAmIChildren ++ whoAmILines rules w.content }

/-- A phone string with every whitespace, dot and dash character removed
(the replace of /[\s.-]/g with the empty string). -/
def cleanPhone (phone : String) : String :=
  String.mk (phone.data.filter (fun c => !(c.isWhitespace || c == '.' || c == '-')))

/-- One phone anchor: a tel: link whose display is an inline div filled by
applyStyleToText on the raw phone string. -/
def phoneLink (rules : Option StylingRules) (phone : String) : Node :=
  Node.elem "a" "" [("href", "tel:" ++ cleanPhone phone)]
    [Node.elem "div" "" [("style.display", "inline")] (applyStyleToText rules phone)]

/-- The styled slash separator placed between consecutive phone links. -/
def phoneSeparator : Node :=
  Node.elem "span" "punctuation-highlight" [] [Node.text "/"]

/-- The phones loop: a tel: link per phone, with a separator span after
every phone except the last. -/
def phoneNodes (rules : Option StylingRules) : List String → List Node
  | [] => []
  | [p] => [phoneLink rules p]
  | p :: p2 :: rest => phoneLink rules p :: phoneSeparator :: phoneNodes rules (p2 :: rest)

/-- One item of the fixed items array of renderPersonalInfoSection:
(label, value, isEmail). -/
def personalInfoLi : String × String × Bool → Node
  | (label, value, isEmail) =>
    Node.elem "li" "" []
      (Node.elem "strong" "" [] [Node.text (label ++ " : ")] ::
        (if isEmail then
          [Node.elem "a" "" [("href", "mailto:" ++ value)] [Node.text value]]
        else
          [Node.text value]))

/-- The fixed items array of renderPersonalInfoSection, in source order. -/
def personalInfoItems (info : PersonalInfo) : List (String × String × Bool) :=
  [("Legal Name", info.legalName, false),
   ("Preferred Name", info.preferredName, false),
   ("Date of birth", info.dateOfBirth, false),
   ("Email", info.email, true)]

/-- Truthiness of `info.phones && info.phones.length > 0`. -/
def phonesPresent : Option (List String) → Bool
  | none => false
  | some l => decide (0 < l.length)

/-- Children produced by renderPersonalInfoSection for its container: the
four fixed list items, then (when phones are present and non-empty) a
fifth item holding the phone links. -/
def personalInfoChildrenOf (rules : Option StylingRules) (info : PersonalInfo) : List Node :=
  (personalInfoItems info).map personalInfoLi ++
    (if phonesPresent info.phones then
      [Node.elem "li" "" []
        (Node.elem "strong" "" [] [Node.text "Phone : "] ::
          phoneNodes rules (info.phones.getD []))]
    else [])

/-- ContentManager.renderPersonalInfoSection. -/
def renderPersonalInfoSection (rules : Option StylingRules)
    (data : Option PersonalInfo) (dom : Dom) : Dom :=
  match data with
  | none => dom
  | some info =>
    { dom with personalInfoChildren :=
        clearContainer dom.personalInfoChildren ++ personalInfoChildrenOf rules info }

/-- A plain know-how list item. -/
def knowHowLi (item : String) : Node := Node.elem "li" "" [] [Node.text item]

/-- ContentManager.renderKnowHowSection: midPoint = Math.ceil(n / 2);
left column = slice(0, midPoint), right column = slice(midPoint). -/
def renderKnowHowSection (data : Option (List String)) (dom : Dom) : Dom :=
  match data with
  | none => dom
  | some knowHow =>
    let midPoint := (knowHow.length + 1) / 2
    let leftColumn := knowHow.take midPoint
    let rightColumn := knowHow.drop midPoint
    { dom with
        knowHowLeft := clearContainer dom.knowHowLeft ++ leftColumn.map knowHowLi,
        knowHowRight := clearContainer dom.knowHowRight ++ rightColumn.map knowHowLi }

/-- A details list: one li per detail line, filled by applyStyleToText. -/
def detailsUl (rules : Option StylingRules) (details : List String) : Node :=
  Node.elem "ul" "" []
    (details.map (fun detail => Node.elem "li" "" [] (applyStyleToText rules detail)))

/-- One showcase entry: hgroup > h4 with a new-tab link on the title, a
styled colon and the plain description; then p > ul of styled details. -/
def showcaseEntryNode (rules : Option StylingRules) (project : Project) : Node :=
  Node.elem "div" "exp animated fadeInUp" []
    [Node.elem "div" "hgroup" []
      [Node.elem "h4" "" []
        [Node.elem "a" "" [("href", project.url), ("target", "_blank"), ("rel", "noopener")]
          [Node.text project.title],
         Node.elem "span" "punctuation-highlight" [] [Node.text ":"],
         Node.text (" " ++ project.description)]],
     Node.elem "p" "" [] [detailsUl rules project.details]]

/-- ContentManager.renderShowcaseSection. -/
def renderShowcaseSection (rules : Option StylingRules)
    (data : Option (List Project)) (dom : Dom) : Dom :=
  match data with
  | none => dom
  | some showcase =>
    { dom with showcaseChildren :=
        clearContainer dom.showcaseChildren ++ showcase.map (showcaseEntryNode rules) }

/-- The inline div wrapping a styled period string inside an h5. -/
def periodH5 (rules : Option StylingRules) (period : String) : Node :=
  Node.elem "h5" "" []
    [Node.elem "div" "" [("style.display", "inline")] (applyStyleToText rules period)]

/-- One experience entry: hgroup with plain title h4 and styled period h5;
then p > ul of styled details. -/
def experienceEntryNode (rules : Option StylingRules) (exp : ExperienceEntry) : Node :=
  Node.elem "div" "exp animated fadeInUp" []
    [Node.elem "div" "hgroup" []
      [Node.elem "h4" "" [] [Node.text exp.title],
       periodH5 rules exp.period],
     Node.elem "p" "" [] [detailsUl rules exp.details]]

/-- ContentManager.renderExperienceSection. -/
def renderExperienceSection (rules : Option StylingRules)
    (data : Option (List ExperienceEntry)) (dom : Dom) : Dom :=
  match data with
  | none => dom
  | some experience =>
    { dom with experienceChildren :=
        clearContainer dom.experienceChildren ++ experience.map (experienceEntryNode rules) }

/-- An institution anchor: new-tab, noopener link with a plain text. -/
def instLink (href text : String) : Node :=
  Node.elem "a" "" [("href", href), ("target", "_blank"), ("rel", "noopener")]
    [Node.text text]

/-- The styled ampersand separator between two institution links. -/
def ampSpan : Node := Node.elem "span" "punctuation-highlight" [] [Node.text " & "]

/-- Worker for jsSplitOn: scan the text for the separator, accumulating
the current piece in reverse; on a separator match emit the piece and skip
the separator. The fuel argument only drives structural recursion and is
chosen large enough never to run out. -/
def splitCharsFuel (sep : List Char) : Nat → List Char → List Char → List (List Char)
  | 0, acc, l => [acc.reverse ++ l]
  | _ + 1, acc, [] => [acc.reverse]
  | fuel + 1, acc, c :: rest =>
    if sep.isPrefixOf (c :: rest) then
      acc.reverse :: splitCharsFuel sep fuel [] (List.drop (sep.length - 1) rest)
    else
      splitCharsFuel sep fuel (c :: acc) rest

/-- JS String.prototype.split with a non-empty string separator, modelled
at the character level. -/
def jsSplitOn (s sep : String) : List String :=
  (splitCharsFuel sep.data (s.data.length + 1) [] s.data).map String.mk

/-- The institution link nodes appended to an education heading. When
institutionUrl2 is truthy the institution is split on " & "; only a
two-part split emits the pair of links (any other split count emits no
node at all). When institutionUrl2 is absent or empty a single link
covers the whole institution string. -/
def institutionNodes (edu : EducationEntry) : List Node :=
  match edu.institutionUrl2 with
  | some url2 =>
    if url2 ≠ "" then
      match jsSplitOn edu.institution " & " with
      | [i1, i2] => [instLink edu.institutionUrl i1, ampSpan, instLink url2 i2]
      | _ => []
    else
      [instLink edu.institutionUrl edu.institution]
  | none => [instLink edu.institutionUrl edu.institution]

/-- The education heading: the degree text, a styled en dash, a space and
the institution links. -/
def educationH4 (edu : EducationEntry) : Node :=
  Node.elem "h4" "" []
    ([Node.text (edu.degree ++ " "),
      Node.elem "span" "punctuation-highlight" [] [Node.text "–"],
      Node.text " "] ++ institutionNodes edu)

/-- One education entry: hgroup with the heading and a styled period h5. -/
def educationEntryNode (rules : Option StylingRules) (edu : EducationEntry) : Node :=
  Node.elem "div" "exp animated fadeInUp" []
    [Node.elem "div" "hgroup" []
      [educationH4 edu,
       periodH5 rules edu.period]]

/-- ContentManager.renderEducationSection. -/
def renderEducationSection (rules : Option StylingRules)
    (data : Option (List EducationEntry)) (dom : Dom) : Dom :=
  match data with
  | none => dom
  | some education =>
    { dom with educationChildren :=
        clearContainer dom.educationChildren ++ education.map (educationEntryNode rules) }

/-- The render phase of ContentManager.init: the six section renderers
run in sequence on the loaded document. -/
def renderAllSections (rules : Option StylingRules) (doc : ContentData) (dom : Dom) : Dom :=
  renderEducationSection rules doc.education
    (renderExperienceSection rules doc.experience
      (renderShowcaseSection rules doc.showcase
        (renderKnowHowSection doc.knowHow
          (renderPersonalInfoSection rules doc.personalInfo
            (renderWhoAmISection rules doc.whoAmI dom)))))

/-- The six section kinds of the content document. -/
inductive Sect where
  | whoAmI
  | personalInfo
  | knowHow
  | showcase
  | experience
  | education
deriving Repr, DecidableEq

/-- The document with one section's data key removed. -/
def removeSect : Sect → ContentData → ContentData
  | .whoAmI, d => { d with whoAmI := none }
  | .personalInfo, d => { d with personalInfo := none }
  | .knowHow, d => { d with knowHow := none }
  | .showcase, d => { d with showcase := none }
  | .experience, d => { d with experience := none }
  | .education, d => { d with education := none }

/-- The container contents owned by one section (knowHow owns two). -/
def sectViews : Sect → Dom → List (List Node)
  | .whoAmI, dom => [dom.whoAmIChildren]
  | .personalInfo, dom => [dom.personalInfoChildren]
  | .knowHow, dom => [dom.knowHowLeft, dom.knowHowRight]
  | .showcase, dom => [dom.showcaseChildren]
  | .experience, dom => [dom.experienceChildren]
  | .education, dom => [dom.educationChildren]

/-- A document in which every section's data key is present. -/
def fullDoc (d : ContentData) : Prop :=
  d.whoAmI.isSome ∧ d.personalInfo.isSome ∧ d.knowHow.isSome ∧
    d.showcase.isSome ∧ d.experience.isSome ∧ d.education.isSome

/-- The payload of the content-document fetch: the two top-level keys,
each possibly absent. -/
structure LoaderPayload where
  sections : Option ContentData
  styling : Option StylingRules

/-- Outcome of the fetch of about-content.json: a failure (non-success
HTTP status, network error or JSON parse error — all funnelled into the
catch block) or a successfully parsed payload. -/
inductive FetchOutcome where
  | fetchFailure
  | fetchSuccess (payload : LoaderPayload)

/-- State of the ContentManager after loadContentData: the two fields it
assigns and the value it returns. -/
structure LoaderState where
  contentData : Option ContentData
  stylingRules : Option StylingRules
  returned : Option LoaderPayload

/-- ContentManager.loadContentData: on any fetch/parse failure the catch
block returns null and the fields stay null; on success the fields receive
data.sections and data.styling (whether or not those keys exist) and the
whole payload is returned. -/
def loadContentData : FetchOutcome → LoaderState
  | .fetchFailure => { contentData := none, stylingRules := none, returned := none }
  | .fetchSuccess p =>
    { contentData := p.sections, stylingRules := p.styling, returned := some p }

/-- The guard in ContentManager.init: rendering proceeds exactly when
this.contentData is truthy after loadContentData. -/
def initRenders (st : LoaderState) : Bool := st.contentData.isSome

/-- The sources getApiKey consults: the ENV_CONFIG key (none when
ENV_CONFIG or its AZURE_MAPS_SUBSCRIPTION_KEY property is missing), the
data-azure-maps-key attribute (none when no element carries it), and
whether the page is served from localhost/127.0.0.1. -/
structure KeyEnv where
  envConfigKey : Option String
  dataAttr : Option String
  isLocal : Bool

/-- JS String.prototype.startsWith, modelled at the character level. -/
def strStartsWith (s p : String) : Bool := p.data.isPrefixOf s.data

/-- JS String.prototype.trim, modelled at the character level: leading and
trailing whitespace removed. -/
def strTrim (s : String) : String :=
  String.mk (((s.data.dropWhile Char.isWhitespace).reverse.dropWhile Char.isWhitespace).reverse)

/-- AzureMapsIntegration.getFromEnvConfig: returns the ENV_CONFIG key only
when it is truthy, does not start with the placeholder prefix, is not the
string "undefined" and is not whitespace-only; otherwise null. -/
def getFromEnvConfig (env : KeyEnv) : Option String :=
  match env.envConfigKey with
  | some key =>
    if key ≠ "" then
      if key ≠ "" ∧ strStartsWith key "$\x7b" = false ∧ key ≠ "undefined" ∧ strTrim key ≠ "" then
        some key
      else none
    else none
  | none => none

/-- AzureMapsConfig.loadFromDataAttribute: the attribute value when an
element carrying it exists, otherwise null. -/
def loadFromDataAttribute (env : KeyEnv) : Option String := env.dataAttr

/-- AzureMapsConfig.getLocalDevKey: always returns null (the key must be
set by other means in local development). -/
def getLocalDevKey : Option String := none

/-- AzureMapsConfig.getApiKey: the fallback chain ENV_CONFIG key (with the
same placeholder/undefined/empty filter as getFromEnvConfig) → data
attribute (when truthy) → local development fallback → null. -/
def getApiKey (env : KeyEnv) : Option String :=
  match getFromEnvConfig env with
  | some key => some key
  | none =>
    match loadFromDataAttribute env with
    | some key =>
      if key ≠ "" then some key
      else if env.isLocal then getLocalDevKey else none
    | none =>
      if env.isLocal then getLocalDevKey else none

/-- The href of a top-level anchor node when it is a tel: link. -/
def telHref : Node → Option String
  | Node.elem "a" _ attrs _ =>
    match attrs.lookup "href" with
    | some h => if strStartsWith h "tel:" then some h else none
    | none => none
  | _ => none

/-- The hrefs of the tel: anchors of a node list, in order. -/
def telHrefs (l : List Node) : List String := l.filterMap telHref

/-- Whether a node is the styled slash separator between phone links. -/
def isSlashSep : Node → Bool
  | Node.elem "span" "punctuation-highlight" _ [Node.text "/"] => true
  | _ => false

/-- Number of styled slash separators at the top level of a node list. -/
def sepCount (l : List Node) : Nat := (l.filter isSlashSep).length

/-- The (visible text, href) pair of a top-level anchor node. -/
def linkView : Node → Option (String × String)
  | Node.elem "a" _ attrs children =>
    some (textOfNodes children, (attrs.lookup "href").getD "")
  | _ => none

/-- The (visible text, href) pairs of the anchors of a node list. -/
def linkViews (l : List Node) : List (String × String) := l.filterMap linkView

/-- The text content of one node, as a string. -/
def nodeText (n : Node) : String := String.mk (nodeChars n)

/-- The (visible text, href) pairs of the anchors among a node's children. -/
def childLinkViews : Node → List (String × String)
  | .text _ => []
  | .elem _ _ _ children => linkViews children

/-- Concrete styling rules of the worked example in the spec. -/
def rulesHello : Option StylingRules :=
  some { firstLetterRule := some { enabled := true, className := "big" },
         punctuationRule := some { enabled := true, characters := ",!", className := "hl" } }

/-- The worked-example rules with the punctuation rule disabled. -/
def rulesNoPunct : Option StylingRules :=
  some { firstLetterRule := some { enabled := true, className := "big" },
         punctuationRule := some { enabled := false, characters := ",!", className := "hl" } }

/-- A concrete personal-info record with two phones. -/
def infoTwoPhones : PersonalInfo :=
  { legalName := "Ada L", preferredName := "Ada", dateOfBirth := "Dec 10",
    email := "ada@example.org", phones := some ["123-456", "789.0 12"] }

/-- A concrete education entry with a two-part institution. -/
def eduTwoPart : EducationEntry :=
  { degree := "BSc", institution := "MIT & Caltech", institutionUrl := "u1",
    institutionUrl2 := some "u2", period := "2010-2014" }

/-- A concrete education entry whose institution has no " & " separator
although institutionUrl2 is present. -/
def eduOnePart : EducationEntry :=
  { degree := "BSc", institution := "MIT", institutionUrl := "u1",
    institutionUrl2 := some "u2", period := "2010-2014" }

/-- A concrete showcase entry. -/
def projDemo : Project :=
  { title := "Demo", url := "https://example.org", description := "demo", details := ["d1"] }

/-- A concrete experience entry. -/
def expDemo : ExperienceEntry :=
  { title := "Engineer", period := "2020", details := ["e1"] }

/-- A concrete content document in which every section key is present. -/
def docFull : ContentData :=
  { whoAmI := some { content := ["Hello, World!"] },
    personalInfo := some infoTwoPhones,
    knowHow := some ["A", "B", "C", "D", "E"],
    showcase := some [projDemo],
    experience := some [expDemo],
    education := some [eduTwoPart] }

/-- A DOM whose seven containers are all empty. -/
def domEmpty : Dom :=
  { whoAmIChildren := [], personalInfoChildren := [], knowHowLeft := [],
    knowHowRight := [], showcaseChildren := [], experienceChildren := [],
    educationChildren := [] }

/-- A fetched payload carrying sections but no styling key. -/
def payloadNoStyling : LoaderPayload := { sections := some docFull, styling := none }

/-- A key environment whose ENV_CONFIG key is the unexpanded placeholder
and whose page carries a data attribute key. -/
def envPlaceholder : KeyEnv :=
  { envConfigKey := some "$\x7bAZURE_MAPS_SUBSCRIPTION_KEY\x7d",
    dataAttr := some "page-key", isLocal := false }

theorem listChars_append (a b : List Node) :
    listChars (a ++ b) = listChars a ++ listChars b := by
  induction a with
  | nil => simp [listChars]
  | cons n rest ih => simp [listChars, ih]

theorem punctScan_chars (pchars : List Char) (cls : String) :
    ∀ (l acc : List Char), listChars (punctScan pchars cls acc l) = acc ++ l := by
  intro l
  induction l with
  | nil =>
    intro acc
    by_cases h : acc.isEmpty
    · simp_all [punctScan, listChars, List.isEmpty_iff]
    · simp_all [punctScan, listChars, nodeChars]
  | cons c rest ih =>
    intro acc
    by_cases hc : pchars.contains c
    · by_cases h : acc.isEmpty <;>
        simp_all [punctScan, listChars_append, listChars, nodeChars, List.isEmpty_iff]
    · simp_all [punctScan]

theorem punctStep_chars (rules : Option StylingRules) (currentText : List Char) :
    listChars (punctStep rules currentText) = currentText := by
  unfold punctStep
  by_cases hp : punctEnabled rules <;> simp [hp, punctScan_chars, listChars, nodeChars]

/-- C1: lossless segmentation — with the punctuation rule enabled and its
character set meeting the string, the concatenated text content of the
nodes applyStyleToText appends equals the input string exactly. -/
theorem applyStyleToText_lossless (rules : Option StylingRules) (text : String)
    (hp : punctEnabled rules = true)
    (hc : ∃ c, c ∈ punctChars rules ∧ c ∈ text.data) :
    textOfNodes (applyStyleToText rules text) = text := by
  unfold textOfNodes applyStyleToText
  by_cases hf : firstLetterEnabled rules <;>
    simp [hf, listChars, nodeChars, punctStep_chars]
  · obtain ⟨data⟩ := text
    cases data <;> simp

/-- Witness for C1 at the worked-example rules and input. -/
theorem applyStyleToText_lossless_witness :
    punctEnabled rulesHello = true ∧
    (∃ c, c ∈ punctChars rulesHello ∧ c ∈ "Hello, World!".data) ∧
    textOfNodes (applyStyleToText rulesHello "Hello, World!") = "Hello, World!" :=
  ⟨by decide, ⟨',', by decide⟩,
    applyStyleToText_lossless rulesHello "Hello, World!" (by decide) ⟨',', by decide⟩⟩

/-- C7: the worked example — the exact node sequence emitted for the
input "Hello, World!" under the example styling rules. -/
theorem applyStyleToText_example :
    applyStyleToText rulesHello "Hello, World!" =
      [Node.elem "span" "big" [] [Node.text "H"],
       Node.text "ello",
       Node.elem "span" "hl" [] [Node.text ","],
       Node.text " World",
       Node.elem "span" "hl" [] [Node.text "!"]] := by
  rfl

/-- C2 counterexample: on the empty string with the first-letter rule
enabled the code emits a span holding the empty string (charAt(0) of ""),
not zero nodes; with the punctuation rule disabled it additionally emits
an empty text node. -/
theorem applyStyleToText_empty_cex :
    ¬(applyStyleToText rulesHello "" = []) ∧
    ¬(applyStyleToText rulesNoPunct "" = [Node.elem "span" "big" [] [Node.text ""]]) ∧
    applyStyleToText rulesHello "" = [Node.elem "span" "big" [] [Node.text ""]] ∧
    applyStyleToText rulesNoPunct "" =
      [Node.elem "span" "big" [] [Node.text ""], Node.text ""] := by
  refine ⟨?_, ?_, rfl, rfl⟩
  · intro h
    have e : applyStyleToText rulesHello "" = [Node.elem "span" "big" [] [Node.text ""]] := rfl
    rw [e] at h
    simpa using congrArg List.length h
  · intro h
    have e : applyStyleToText rulesNoPunct "" =
        [Node.elem "span" "big" [] [Node.text ""], Node.text ""] := rfl
    rw [e] at h
    simpa using congrArg List.length h

/-- C2 amended: on the empty string with the first-letter rule enabled,
applyStyleToText emits exactly one styled span with empty text, followed
by nothing when the punctuation rule is enabled and by one empty text
node when it is disabled. -/
theorem applyStyleToText_empty_amended (rules : Option StylingRules)
    (hf : firstLetterEnabled rules = true) :
    applyStyleToText rules "" =
      Node.elem "span" (firstLetterClass rules) [] [Node.text ""] ::
        (if punctEnabled rules then [] else [Node.text ""]) := by
  by_cases hp : punctEnabled rules <;>
    simp [applyStyleToText, hf, hp, punctStep, punctScan]

/-- Witness for C2's amended theorem at the worked-example rules. -/
theorem applyStyleToText_empty_amended_witness :
    firstLetterEnabled rulesHello = true ∧
    applyStyleToText rulesHello "" =
      Node.elem "span" (firstLetterClass rulesHello) [] [Node.text ""] ::
        (if punctEnabled rulesHello then [] else [Node.text ""]) :=
  ⟨by decide, applyStyleToText_empty_amended rulesHello (by decide)⟩

/-- C8: calling applyStyleToText twice on the same container and input
leaves the same children as calling it once (the container is cleared
before each write). -/
theorem applyStyleToTextDom_idempotent (rules : Option StylingRules)
    (text : String) (container : List Node) :
    applyStyleToTextDom rules text (applyStyleToTextDom rules text container) =
      applyStyleToTextDom rules text container := by
  rfl

theorem nodeText_knowHowLi (item : String) : nodeText (knowHowLi item) = item := by
  simp [nodeText, knowHowLi, nodeChars, listChars]

/-- C6: the know-how split — the left column holds the first ceil(n/2)
items, the right column the remaining floor(n/2), and left followed by
right reproduces the original list ((n+1)/2 and n/2 are ceil(n/2) and
floor(n/2) on naturals). -/
theorem renderKnowHowSection_split (l : List String) (dom : Dom) :
    (renderKnowHowSection (some l) dom).knowHowLeft.length = (l.length + 1) / 2 ∧
    (renderKnowHowSection (some l) dom).knowHowRight.length = l.length / 2 ∧
    ((renderKnowHowSection (some l) dom).knowHowLeft ++
        (renderKnowHowSection (some l) dom).knowHowRight).map nodeText = l := by
  refine ⟨?_, ?_, ?_⟩
  · simp [renderKnowHowSection, clearContainer, List.length_take]
    omega
  · simp [renderKnowHowSection, clearContainer]
    omega
  · simp [renderKnowHowSection, clearContainer, ← List.map_append, List.take_append_drop,
      List.map_map, Function.comp_def, nodeText_knowHowLi]

/-- C4 counterexample: a successfully fetched payload with sections but
without the styling key is returned as-is by loadContentData (not a null
failure result) and init proceeds to render. -/
theorem loadContentData_cex :
    payloadNoStyling.styling = none ∧
    (loadContentData (.fetchSuccess payloadNoStyling)).returned = some payloadNoStyling ∧
    initRenders (loadContentData (.fetchSuccess payloadNoStyling)) = true :=
  ⟨rfl, rfl, rfl⟩

/-- C4 amended: loadContentData returns null exactly when the fetch or
JSON parse fails; the caller skips rendering exactly when the fetch
failed or the sections key is missing; a missing styling key alone
neither nulls the result nor prevents rendering. -/
theorem loadContentData_amended (r : FetchOutcome) :
    ((loadContentData r).returned = none ↔ r = .fetchFailure) ∧
    (initRenders (loadContentData r) = false ↔
      (r = .fetchFailure ∨ ∃ p, r = .fetchSuccess p ∧ p.sections = none)) := by
  cases r with
  | fetchFailure => simp [loadContentData, initRenders]
  | fetchSuccess p =>
    cases hp : p.sections <;> simp [loadContentData, initRenders, hp]

/-- C9: a placeholder ENV_CONFIG key (unexpanded placeholder prefix, the
literal string "undefined", or empty/whitespace-only) is treated as
absent: getFromEnvConfig yields null and getApiKey behaves exactly as if
the ENV_CONFIG source were missing, falling through to the data attribute
and then the local-development fallback. -/
theorem getApiKey_placeholder (env : KeyEnv) (k : String)
    (hk : env.envConfigKey = some k)
    (hbad : strStartsWith k "$\x7b" = true ∨ k = "undefined" ∨ strTrim k = "") :
    getFromEnvConfig env = none ∧
    getApiKey env = getApiKey { env with envConfigKey := none } := by
  have h1 : getFromEnvConfig env = none := by
    unfold getFromEnvConfig
    rw [hk]
    rcases hbad with h | h | h <;> by_cases hk0 : k = "" <;> simp [hk0, h]
  have h2 : getFromEnvConfig { env with envConfigKey := none } = none := by
    simp [getFromEnvConfig]
  refine ⟨h1, ?_⟩
  unfold getApiKey
  rw [h1, h2]
  rfl

/-- Witness for C9 at the unexpanded GitHub Actions placeholder. -/
theorem getApiKey_placeholder_witness :
    envPlaceholder.envConfigKey = some "$\x7bAZURE_MAPS_SUBSCRIPTION_KEY\x7d" ∧
    strStartsWith "$\x7bAZURE_MAPS_SUBSCRIPTION_KEY\x7d" "$\x7b" = true ∧
    getFromEnvConfig envPlaceholder = none ∧
    getApiKey envPlaceholder = getApiKey { envPlaceholder with envConfigKey := none } :=
  ⟨rfl, by decide,
    (getApiKey_placeholder envPlaceholder _ rfl (Or.inl (by decide))).1,
    (getApiKey_placeholder envPlaceholder _ rfl (Or.inl (by decide))).2⟩

theorem linkView_instLink (href text : String) :
    linkView (instLink href text) = some (text, href) := by
  simp [linkView, instLink, textOfNodes, listChars, nodeChars]

theorem linkView_ampSpan : linkView ampSpan = none := rfl

theorem childLinkViews_educationH4 (edu : EducationEntry) :
    childLinkViews (educationH4 edu) = linkViews (institutionNodes edu) := by
  simp [childLinkViews, educationH4, linkViews, List.filterMap_append, linkView]

/-- C3 counterexample: for an entry whose institutionUrl2 is present but
whose institution does not split on " & " into two parts, the heading
contains no institution link at all, not a single link covering the whole
institution string. -/
theorem educationLinks_cex :
    eduOnePart.institutionUrl2 = some "u2" ∧
    childLinkViews (educationH4 eduOnePart) = [] ∧
    ¬(childLinkViews (educationH4 eduOnePart) =
        [(eduOnePart.institution, eduOnePart.institutionUrl)]) := by
  refine ⟨rfl, rfl, ?_⟩
  intro h
  have e : childLinkViews (educationH4 eduOnePart) = [] := rfl
  rw [e] at h
  simpa using congrArg List.length h

/-- C3 amended: with institutionUrl2 present (and non-empty) and a
two-part " & " split, the heading holds two independent links with the
split parts as visible texts, in order, linking to institutionUrl and
institutionUrl2; with institutionUrl2 absent (or empty) a single link
covers the whole institution string; with institutionUrl2 present but a
split of any other size, the heading holds no institution link. -/
theorem educationLinks_amended (edu : EducationEntry) :
    (∀ url2, edu.institutionUrl2 = some url2 → url2 ≠ "" →
      (∀ i1 i2, jsSplitOn edu.institution " & " = [i1, i2] →
        childLinkViews (educationH4 edu) = [(i1, edu.institutionUrl), (i2, url2)]) ∧
      ((jsSplitOn edu.institution " & ").length ≠ 2 →
        childLinkViews (educationH4 edu) = [])) ∧
    ((edu.institutionUrl2 = none ∨ edu.institutionUrl2 = some "") →
      childLinkViews (educationH4 edu) = [(edu.institution, edu.institutionUrl)]) := by
  rw [childLinkViews_educationH4]
  refine ⟨fun url2 h2 hne => ⟨fun i1 i2 hsplit => ?_, fun hlen => ?_⟩, fun hb => ?_⟩
  · simp [institutionNodes, h2, hne, hsplit, linkViews, linkView_instLink, linkView_ampSpan]
  · rcases hl : jsSplitOn edu.institution " & " with _ | ⟨a, _ | ⟨b, _ | ⟨c, t⟩⟩⟩ <;>
      simp [institutionNodes, h2, hne, hl, linkViews]
    simp [hl] at hlen
  · rcases hb with hb | hb <;>
      simp [institutionNodes, hb, linkViews, linkView_instLink]

/-- Witness for C3's amended theorem on a two-part institution. -/
theorem educationLinks_amended_witness :
    eduTwoPart.institutionUrl2 = some "u2" ∧
    jsSplitOn eduTwoPart.institution " & " = ["MIT", "Caltech"] ∧
    childLinkViews (educationH4 eduTwoPart) =
      [("MIT", eduTwoPart.institutionUrl), ("Caltech", "u2")] :=
  ⟨rfl, rfl,
    ((educationLinks_amended eduTwoPart).1 "u2" rfl (by decide)).1 "MIT" "Caltech" rfl⟩

theorem telHref_phoneLink (rules : Option StylingRules) (p : String) :
    telHref (phoneLink rules p) = some ("tel:" ++ cleanPhone p) := by
  simp [telHref, phoneLink, strStartsWith, List.isPrefixOf_iff_prefix]

theorem telHref_phoneSeparator : telHref phoneSeparator = none := rfl

theorem telHrefs_cons_phoneLink (rules : Option StylingRules) (p : String) (l : List Node) :
    telHrefs (phoneLink rules p :: l) = ("tel:" ++ cleanPhone p) :: telHrefs l := by
  simp [telHrefs, List.filterMap_cons, telHref_phoneLink]

theorem telHrefs_cons_sep (l : List Node) :
    telHrefs (phoneSeparator :: l) = telHrefs l := by
  simp [telHrefs, List.filterMap_cons, telHref_phoneSeparator]

theorem telHrefs_phoneNodes (rules : Option StylingRules) :
    ∀ ps, telHrefs (phoneNodes rules ps) = ps.map (fun p => "tel:" ++ cleanPhone p) := by
  intro ps
  induction ps with
  | nil => rfl
  | cons p rest ih =>
    cases rest with
    | nil => simp [phoneNodes, telHrefs, List.filterMap_cons, telHref_phoneLink]
    | cons q t => simp [phoneNodes, telHrefs_cons_phoneLink, telHrefs_cons_sep] at ih ⊢; exact ih

theorem isSlashSep_phoneLink (rules : Option StylingRules) (p : String) :
    isSlashSep (phoneLink rules p) = false := rfl

theorem sepCount_cons_phoneLink (rules : Option StylingRules) (p : String) (l : List Node) :
    sepCount (phoneLink rules p :: l) = sepCount l := by
  simp [sepCount, List.filter_cons, isSlashSep_phoneLink]

theorem sepCount_cons_sep (l : List Node) :
    sepCount (phoneSeparator :: l) = sepCount l + 1 := by
  simp [sepCount, List.filter_cons, isSlashSep, phoneSeparator]

theorem sepCount_phoneNodes (rules : Option StylingRules) :
    ∀ ps, sepCount (phoneNodes rules ps) = ps.length - 1 := by
  intro ps
  induction ps with
  | nil => rfl
  | cons p rest ih =>
    cases rest with
    | nil => simp [phoneNodes, sepCount, List.filter_cons, isSlashSep_phoneLink]
    | cons q t =>
      simp [phoneNodes, sepCount_cons_phoneLink, sepCount_cons_sep] at ih ⊢
      omega

/-- C10: renderPersonalInfoSection always renders the four fixed items in
order (Legal Name, Preferred Name, Date of birth, Email with a mailto
link); it appends the Phone item exactly when phones is present and
non-empty, and that item holds one tel: link per phone (href tel: plus the
phone stripped of whitespace, dots and dashes) with styled slash
separators between consecutive links. -/
theorem renderPersonalInfoSection_phones (rules : Option StylingRules)
    (info : PersonalInfo) (dom : Dom) :
    (renderPersonalInfoSection rules (some info) dom).personalInfoChildren.take 4 =
      [Node.elem "li" "" [] [Node.elem "strong" "" [] [Node.text "Legal Name : "],
         Node.text info.legalName],
       Node.elem "li" "" [] [Node.elem "strong" "" [] [Node.text "Preferred Name : "],
         Node.text info.preferredName],
       Node.elem "li" "" [] [Node.elem "strong" "" [] [Node.text "Date of birth : "],
         Node.text info.dateOfBirth],
       Node.elem "li" "" [] [Node.elem "strong" "" [] [Node.text "Email : "],
         Node.elem "a" "" [("href", "mailto:" ++ info.email)] [Node.text info.email]]] ∧
    (∀ ps, info.phones = some ps → ps ≠ [] →
      (renderPersonalInfoSection rules (some info) dom).personalInfoChildren.drop 4 =
        [Node.elem "li" "" []
          (Node.elem "strong" "" [] [Node.text "Phone : "] :: phoneNodes rules ps)] ∧
      telHrefs (phoneNodes rules ps) = ps.map (fun p => "tel:" ++ cleanPhone p) ∧
      sepCount (phoneNodes rules ps) = ps.length - 1) ∧
    ((info.phones = none ∨ info.phones = some []) →
      (renderPersonalInfoSection rules (some info) dom).personalInfoChildren.drop 4 = []) := by
  refine ⟨rfl, fun ps hps hne => ?_, fun hb => ?_⟩
  · have hlen : 0 < ps.length := List.length_pos.mpr hne
    refine ⟨?_, telHrefs_phoneNodes rules ps, sepCount_phoneNodes rules ps⟩
    show (personalInfoChildrenOf rules info).drop 4 = _
    simp [personalInfoChildrenOf, personalInfoItems, personalInfoLi, phonesPresent, hps, hlen]
  · show (personalInfoChildrenOf rules info).drop 4 = []
    rcases hb with hb | hb <;> simp [personalInfoChildrenOf, personalInfoItems, phonesPresent, hb]

/-- Witness for C10 with two phones needing cleaning. -/
theorem renderPersonalInfoSection_phones_witness :
    infoTwoPhones.phones = some ["123-456", "789.0 12"] ∧
    (renderPersonalInfoSection rulesHello (some infoTwoPhones) domEmpty).personalInfoChildren.drop 4 =
      [Node.elem "li" "" []
        (Node.elem "strong" "" [] [Node.text "Phone : "] ::
          phoneNodes rulesHello ["123-456", "789.0 12"])] ∧
    telHrefs (phoneNodes rulesHello ["123-456", "789.0 12"]) =
      (["123-456", "789.0 12"]).map (fun p => "tel:" ++ cleanPhone p) ∧
    sepCount (phoneNodes rulesHello ["123-456", "789.0 12"]) = 1 := by
  have h := (renderPersonalInfoSection_phones rulesHello infoTwoPhones domEmpty).2.1
    ["123-456", "789.0 12"] rfl (by decide)
  exact ⟨rfl, h.1, h.2.1, h.2.2⟩

/-- C5: section isolation — removing exactly one section's data key from
an otherwise full document makes that section's renderer perform no DOM
writes, while each of the other five renderers produces exactly the output
it produces on the full document. -/
theorem renderSections_isolation (rules : Option StylingRules) (doc : ContentData)
    (dom : Dom) (k : Sect) (hfull : fullDoc doc) :
    sectViews k (renderAllSections rules (removeSect k doc) dom) = sectViews k dom ∧
    ∀ j, j ≠ k → sectViews j (renderAllSections rules (removeSect k doc) dom) =
      sectViews j (renderAllSections rules doc dom) := by
  obtain ⟨owho, opi, okh, osc, oex, oed⟩ := doc
  obtain ⟨h1, h2, h3, h4, h5, h6⟩ := hfull
  obtain ⟨w, rfl⟩ := Option.isSome_iff_exists.mp h1
  obtain ⟨pi, rfl⟩ := Option.isSome_iff_exists.mp h2
  obtain ⟨kh, rfl⟩ := Option.isSome_iff_exists.mp h3
  obtain ⟨sc, rfl⟩ := Option.isSome_iff_exists.mp h4
  obtain ⟨ex, rfl⟩ := Option.isSome_iff_exists.mp h5
  obtain ⟨ed, rfl⟩ := Option.isSome_iff_exists.mp h6
  constructor
  · cases k <;>
      simp [renderAllSections, removeSect, renderWhoAmISection, renderPersonalInfoSection,
        renderKnowHowSection, renderShowcaseSection, renderExperienceSection,
        renderEducationSection, sectViews, clearContainer]
  · intro j hj
    cases k <;> cases j <;>
      simp_all [renderAllSections, removeSect, renderWhoAmISection, renderPersonalInfoSection,
        renderKnowHowSection, renderShowcaseSection, renderExperienceSection,
        renderEducationSection, sectViews, clearContainer]

/-- Witness for C5: removing whoAmI from the concrete full document. -/
theorem renderSections_isolation_witness :
    fullDoc docFull ∧
    sectViews Sect.whoAmI (renderAllSections rulesHello (removeSect Sect.whoAmI docFull) domEmpty) =
      sectViews Sect.whoAmI domEmpty ∧
    sectViews Sect.education (renderAllSections rulesHello (removeSect Sect.whoAmI docFull) domEmpty) =
      sectViews Sect.education (renderAllSections rulesHello docFull domEmpty) :=
  ⟨⟨rfl, rfl, rfl, rfl, rfl, rfl⟩,
    (renderSections_isolation rulesHello docFull domEmpty Sect.whoAmI
      ⟨rfl, rfl, rfl, rfl, rfl, rfl⟩).1,
    (renderSections_isolation rulesHello docFull domEmpty Sect.whoAmI
      ⟨rfl, rfl, rfl, rfl, rfl, rfl⟩).2 Sect.education (by decide)⟩
